import Mathlib

/-!
Shallow embedding of `contrib/plugins/armcov.c` (the wr-qemu armcov plugin).

The plugin-API collaborators (register enumeration, raw register reads,
the boolean option parser) are external to the repository; they are
modelled as explicit function parameters (`Env`, `bp`).  Everything else
is translated definition-by-definition from the C source:

- `get_reg_desc`        from `get_reg_desc`
- `read_register`       from `read_register`
- `vcpu_insn_exec_cb`   from `vcpu_insn_exec_cb` (with `step23` naming the
                        code after the early-return point)
- `vcpu_tb_trans`       from `vcpu_tb_trans` (per-instruction classification)
- `vcpu_init`           from `vcpu_init` (registry grow)
- `plugin_exit`         from `plugin_exit`
- `qemu_plugin_install` from `qemu_plugin_install` (argument loop)

GLib behaviours that the code relies on are embedded directly:
`g_strstr_len` is substring search, `g_str_has_prefix` is prefix test,
`g_strrstr(s, " ") + 1` is the suffix after the last space,
`g_pattern_spec_match_string` is glob matching with `*` and `?`,
`g_strsplit(opt, "=", 2)` splits at the first `=`.
-/

namespace Armcov

/-- Big-endian-style per-byte hex: `%02x` of one byte (values are taken mod 256,
matching the `guint8` elements of the `GByteArray`). -/
def byteHex (b : Nat) : String :=
  String.mk [Nat.digitChar (b / 16 % 16), Nat.digitChar (b % 16)]

/-- `%PRIx64` / `%PRIx32`: lowercase hex rendering of a machine word. -/
def hexStr (n : Nat) : String :=
  String.mk (Nat.toDigits 16 n)

/-- Substring test on character lists (the semantics of `g_strstr_len(s, -1, sub)`
viewed as a boolean). -/
def containsSub : List Char → List Char → Bool
  | [], sub => sub.isEmpty
  | c :: t, sub => List.isPrefixOf sub (c :: t) || containsSub t sub

/-- `g_strstr_len(s, -1, sub) != NULL`. -/
def strContains (s sub : String) : Bool :=
  containsSub s.data sub.data

/-- `g_str_has_prefix(s, pfx)`. -/
def strStartsWith (s pfx : String) : Bool :=
  List.isPrefixOf pfx.data s.data

/-- `g_strrstr(s, " ") + 1`: the suffix of `s` after its last space.  The C code
only evaluates this on records that contain a space (every seeded record
contains `", "`); on a space-free string this total model returns `s` itself. -/
def afterLastSpace (s : String) : String :=
  String.mk ((s.data.reverse.takeWhile (fun c => c != ' ')).reverse)

/-- Fuelled glob matcher: `*` matches any run, `?` matches one character,
anything else matches itself (the `GPatternSpec` semantics used by
`g_pattern_spec_match_string`).  Structural recursion on the fuel keeps the
definition kernel-reducible; `globMatch` supplies sufficient fuel. -/
def globMatchF : Nat → List Char → List Char → Bool
  | 0, _, _ => false
  | f + 1, p, s =>
    match p, s with
    | [], s2 => s2.isEmpty
    | pc :: ps, s2 =>
      if pc = '*' then
        match s2 with
        | [] => globMatchF f ps []
        | _ :: cs => globMatchF f ps s2 || globMatchF f (pc :: ps) cs
      else
        match s2 with
        | [] => false
        | c :: cs => if pc = '?' then globMatchF f ps cs else (pc == c && globMatchF f ps cs)

/-- `g_pattern_spec_match_string(g_pattern_spec_new(pat), s)`. -/
def globMatch (pat s : String) : Bool :=
  globMatchF (pat.data.length + s.data.length + 1) pat.data s.data

/-- A `qemu_plugin_reg_descriptor`: a register name and an opaque handle. -/
structure RegDesc where
  name : String
  handle : Nat
  deriving DecidableEq

/-- The external execution-engine interface consumed by the plugin:
`qemu_plugin_get_registers` and `qemu_plugin_read_register` (the latter
returns the raw byte sequence placed in the `GByteArray`). -/
structure Env where
  getRegisters : Nat → List RegDesc
  readRegister : Nat → Nat → List Nat

/-- The per-vcpu `CPU` struct: pending record buffer and stored core tag. -/
structure CPU where
  insn_rec : String
  index : Nat
  deriving DecidableEq

/-- Result of one `vcpu_insn_exec_cb` invocation: the updated per-core state,
the records shipped through `qemu_plugin_outs`, and the diagnostics written
to `stderr`, each in order. -/
structure CbResult where
  cpu : CPU
  outs : List String
  errs : List String
  deriving DecidableEq

/-- `get_reg_desc`: linear scan of the register list, first glob match wins,
`NULL` (here `none`) when nothing matches or the list is empty. -/
def get_reg_desc (reg_list : List RegDesc) (reg_pat : String) : Option RegDesc :=
  reg_list.find? (fun d => globMatch reg_pat d.name)

/-- String of `hexBytesRev`: the register bytes are appended `%02x` each,
from the last index of the byte array down to index 0 (the C loop
`for (i = regsize-1; i >= 0; i--)`). -/
def hexBytesRev : List Nat → String
  | [] => ""
  | b :: bs => hexBytesRev bs ++ byteHex b

/-- `read_register`: appends `", <name> -> 0x"`, then the register bytes
most-recently-indexed-first, then a newline, to the record. -/
def read_register (env : Env) (cpu_index : Nat) (desc : RegDesc) (record : String) : String :=
  record ++ ", " ++ desc.name ++ " -> 0x" ++ hexBytesRev (env.readRegister cpu_index desc.handle) ++ "\n"

/-- The stderr diagnostic for a failed `TTBR0_EL1` lookup. -/
def diagTTBR (idx : Nat) : String :=
  "Failed to find register TTBR0_EL1 on cpu " ++ toString idx ++ ".\n"

/-- The stderr diagnostic for a failed branch-target-register lookup. -/
def diagReg (r : String) (idx : Nat) : String :=
  "Failed to find register " ++ r ++ " on cpu " ++ toString idx ++ ".\n"

/-- `g_string_printf(insn_rec, "%u, ", cpu_index); g_string_append(insn_rec, udata)`. -/
def seedRec (cpu_index : Nat) (udata : String) : String :=
  toString cpu_index ++ ", " ++ udata

/-- The tail of `vcpu_insn_exec_cb` after the early-return point: seed the
pending record with the new instruction's static context, then classify it
(`blr` first, then `bl`), resolving immediately where applicable.
`outs1` holds whatever the deferred-resolution step already shipped. -/
def step23 (env : Env) (cpu_index : Nat) (udata : String) (cpu : CPU) (outs1 : List String) : CbResult :=
  let rec2 := seedRec cpu_index udata
  if rec2.length != 0 && strContains rec2 "blr" then
    match get_reg_desc (env.getRegisters cpu.index) (afterLastSpace rec2) with
    | none =>
      { cpu := { cpu with insn_rec := rec2 }, outs := outs1,
        errs := [diagReg (afterLastSpace rec2) cpu.index] }
    | some desc =>
      let r3 := read_register env cpu_index desc rec2
      { cpu := { cpu with insn_rec := r3 }, outs := outs1 ++ [r3], errs := [] }
  else if rec2.length != 0 && strContains rec2 "bl" then
    { cpu := { cpu with insn_rec := rec2 ++ "\n" }, outs := outs1 ++ [rec2 ++ "\n"], errs := [] }
  else
    { cpu := { cpu with insn_rec := rec2 }, outs := outs1, errs := [] }

/-- `vcpu_insn_exec_cb`: if the pending record is non-empty and contains
`"msr"`, look up `TTBR0_EL1` (against the register list of the *stored*
core tag `cpu->index`), on failure print a diagnostic and return early
(leaving the pending record untouched), on success render the register into
the pending record and ship it; then fall through to `step23`. -/
def vcpu_insn_exec_cb (env : Env) (cpu_index : Nat) (udata : String) (cpu : CPU) : CbResult :=
  if cpu.insn_rec.length != 0 && strContains cpu.insn_rec "msr" then
    match get_reg_desc (env.getRegisters cpu.index) "TTBR0_EL1" with
    | none => { cpu := cpu, outs := [], errs := [diagTTBR cpu.index] }
    | some desc =>
      step23 env cpu_index udata cpu [read_register env cpu_index desc cpu.insn_rec]
  else
    step23 env cpu_index udata cpu []

/-- One guest instruction as seen at translation time. -/
structure Insn where
  vaddr : Nat
  data : List Nat
  disas : String

/-- `*((uint32_t *)qemu_plugin_insn_data(insn))` on a little-endian host:
the first four bytes assembled least-significant-first. -/
def le32 (l : List Nat) : Nat :=
  l.getD 0 0 % 256 + 256 * (l.getD 1 0 % 256) + 65536 * (l.getD 2 0 % 256)
    + 16777216 * (l.getD 3 0 % 256)

/-- The `udata` string captured per interesting instruction:
`g_strdup_printf("0x%PRIx64, 0x%PRIx32, %s", vaddr, insn_asm, disas)`. -/
def mk_output (vaddr insn_asm : Nat) (disas : String) : String :=
  "0x" ++ hexStr vaddr ++ ", 0x" ++ hexStr insn_asm ++ ", " ++ disas

/-- One `qemu_plugin_register_vcpu_insn_exec_cb` registration: the captured
static context plus the `QEMU_PLUGIN_CB_R_REGS` flag. -/
structure Registration where
  vaddr : Nat
  insn_asm : Nat
  output : String
  rregs : Bool
  deriving DecidableEq

/-- The registration made for a non-skipped instruction. -/
def mkReg (insn : Insn) : Registration :=
  { vaddr := insn.vaddr, insn_asm := le32 insn.data,
    output := mk_output insn.vaddr (le32 insn.data) insn.disas, rregs := true }

/-- The `skip` flag computation of `vcpu_tb_trans`, statement for statement. -/
def insn_skip (disas : String) : Bool :=
  let skip := true
  let skip := if strStartsWith disas "bl" then false else skip
  let skip := if strStartsWith disas "msr ttbr0" then false else skip
  skip

/-- `vcpu_tb_trans`: walk the block, register a callback (with captured
context and `QEMU_PLUGIN_CB_R_REGS`) for every non-skipped instruction. -/
def vcpu_tb_trans : List Insn → List Registration
  | [] => []
  | insn :: rest =>
    if insn_skip insn.disas then vcpu_tb_trans rest
    else mkReg insn :: vcpu_tb_trans rest

/-- `vcpu_init`: grow the registry so `vcpu_index` is addressable; every slot
written by the grow loop gets `.index = vcpu_index` and a fresh empty record. -/
def vcpu_init (cpusL : List CPU) (vcpu_index : Nat) : List CPU :=
  if vcpu_index < cpusL.length then cpusL
  else cpusL ++ List.replicate (vcpu_index + 1 - cpusL.length) { insn_rec := "", index := vcpu_index }

/-- Fold a sequence of core-online events over an initially empty registry. -/
def run_init (es : List Nat) : List CPU :=
  es.foldl vcpu_init []

/-- `plugin_exit`: for every core, append a newline and ship the record.  The
C guard `if (cpus[i].insn_rec->str)` tests the `GString`'s data pointer,
which `g_string_new` never leaves `NULL`, so the guard is always true and
every core's record is shipped, empty or not. -/
def plugin_exit (cpusL : List CPU) : List String :=
  cpusL.map (fun c => c.insn_rec ++ "\n")

/-- `g_strsplit(opt, "=", 2)` token 0: the part before the first `=`. -/
def optKey (opt : String) : String :=
  String.mk (opt.data.takeWhile (fun c => c != '='))

/-- `g_strsplit(opt, "=", 2)` token 1: the part after the first `=`, or
`none` (a `NULL` token) when the option has no `=`. -/
def optVal (opt : String) : Option String :=
  if opt.data.contains '=' then
    some (String.mk ((opt.data.dropWhile (fun c => c != '=')).tail))
  else none

/-- Result of `qemu_plugin_install`: the return value, whether the three
callbacks were registered (they are only registered after the whole
argument loop succeeds), the stderr diagnostics, and the final `fmt_bin`. -/
structure InstallResult where
  ret : Int
  registered : Bool
  errs : List String
  fmt_bin : Bool
  deriving DecidableEq

/-- The argument loop of `qemu_plugin_install`.  `bp` models the external
`qemu_plugin_bool_parse` collaborator (`none` = parse failure, which
includes the `NULL` token of a value-less option). -/
def install_loop (bp : Option String → Option Bool) (fmt : Bool) (errs : List String) :
    List String → InstallResult
  | [] => { ret := 0, registered := true, errs := errs, fmt_bin := fmt }
  | opt :: rest =>
    if optKey opt == "binary" then
      match bp (optVal opt) with
      | none =>
        { ret := -1, registered := false,
          errs := errs ++ ["boolean argument parsing failed: " ++ opt ++ "\n"], fmt_bin := fmt }
      | some b =>
        install_loop bp b (errs ++ ["binary format option not yet supported\n"]) rest
    else
      { ret := -1, registered := false,
        errs := errs ++ ["option parsing failed: " ++ opt ++ "\n"], fmt_bin := fmt }

/-- `qemu_plugin_install`: parse the options; only on full success are the
vcpu-init, tb-translation and atexit callbacks registered. -/
def qemu_plugin_install (bp : Option String → Option Bool) (args : List String) : InstallResult :=
  install_loop bp false [] args

/-- A malformed option: an unrecognised key, or a `binary` value the boolean
parser rejects (including the `NULL` value of a bare `binary`). -/
def badOpt (bp : Option String → Option Bool) (opt : String) : Prop :=
  optKey opt ≠ "binary" ∨ bp (optVal opt) = none

/-- Wildcard-free character list: no `*` and no `?`. -/
def noWildL (p : List Char) : Bool :=
  p.all (fun c => c != '*' && c != '?')

/-- Wildcard-free glob pattern. -/
def noWild (p : String) : Bool :=
  noWildL p.data

/-- Numeric value of one lowercase hex digit (garbage maps to 15). -/
def hexDigitVal (c : Char) : Nat :=
  if c = '0' then 0 else if c = '1' then 1 else if c = '2' then 2 else if c = '3' then 3
  else if c = '4' then 4 else if c = '5' then 5 else if c = '6' then 6 else if c = '7' then 7
  else if c = '8' then 8 else if c = '9' then 9 else if c = 'a' then 10 else if c = 'b' then 11
  else if c = 'c' then 12 else if c = 'd' then 13 else if c = 'e' then 14 else 15

/-- Value of a hex digit string read most-significant-digit-first. -/
def hexValL (l : List Char) : Nat :=
  l.foldl (fun a c => 16 * a + hexDigitVal c) 0

/-- Value of a byte sequence interpreted least-significant-byte-first
(little-endian storage order). -/
def leVal : List Nat → Nat
  | [] => 0
  | b :: bs => b + 256 * leVal bs

/-- Default element for total indexing into the registry. -/
def dCPU : CPU :=
  { insn_rec := "", index := 0 }

/-- Spec-side predicate on a core-online event sequence: every event index is
at most the registry size current when it arrives, i.e. the distinct new
indices come online covering every index in non-decreasing order. -/
def stepwiseB : List Nat → Nat → Bool
  | [], _ => true
  | i :: rest, n => decide (i ≤ n) && stepwiseB rest (max n (i + 1))

/-- Concrete environment for the consecutive-`msr` scenario: `TTBR0_EL1`
exists and every register read returns the single byte `0x2a`. -/
def envA : Env :=
  { getRegisters := fun _ => [{ name := "TTBR0_EL1", handle := 7 }],
    readRegister := fun _ _ => [42] }

/-- Concrete environment exposing no registers at all. -/
def envNone : Env :=
  { getRegisters := fun _ => [], readRegister := fun _ _ => [] }

/-- Concrete environment for the `blr x3` rendering scenario of the spec:
reading any register returns the bytes `00 00 00 00 00 40 05 c0` in array
order. -/
def envC6 : Env :=
  { getRegisters := fun _ => [{ name := "x3", handle := 0 }],
    readRegister := fun _ _ => [0, 0, 0, 0, 0, 64, 5, 192] }

/-- Concrete environment for the `blr x3` scenario with the value `0x4005c0`
stored least-significant-byte-first. -/
def envX3 : Env :=
  { getRegisters := fun _ => [{ name := "x3", handle := 3 }],
    readRegister := fun _ _ => [192, 5, 64, 0, 0, 0, 0, 0] }

/-- Concrete boolean parser with the usual accepted spellings. -/
def bpStd : Option String → Option Bool := fun v =>
  match v with
  | some "true" => some true
  | some "on" => some true
  | some "yes" => some true
  | some "false" => some false
  | some "off" => some false
  | some "no" => some false
  | _ => none

/-- Static context of a first `msr ttbr0_el1` instruction. -/
def u1c : String := "0x100, 0xd5182000, msr ttbr0_el1, x1"

/-- Static context of an immediately following `msr ttbr0_el1` instruction. -/
def u2c : String := "0x104, 0xd5182020, msr ttbr0_el1, x2"

/-- Static context of the spec's direct branch-with-link scenario. -/
def ubl : String := "0x400500, 0x94000058, bl #0x4005c0"

/-- Static context of a direct branch-with-link following an `msr`. -/
def ubl2 : String := "0x104, 0xc, bl #0x400"

/-- A pending `msr ttbr0_el1` record awaiting deferred resolution. -/
def recMsr : String := "0, 0xa, 0xb, msr ttbr0_el1, x1"

/-- The `TTBR0_EL1` descriptor of `envA`. -/
def dTTBR : RegDesc := { name := "TTBR0_EL1", handle := 7 }

/-- The `x3` descriptor of `envX3`. -/
def dX3 : RegDesc := { name := "x3", handle := 3 }

/-- The `x3` descriptor of `envC6`. -/
def dX3C6 : RegDesc := { name := "x3", handle := 0 }

/- ------------------------------------------------------------------ -/
/- Helper lemmas                                                      -/
/- ------------------------------------------------------------------ -/

theorem strData_append (s t : String) : (s ++ t).data = s.data ++ t.data := by
  cases s
  cases t
  rfl

theorem strLen_append (s t : String) : (s ++ t).length = s.length + t.length := by
  show (s ++ t).data.length = s.data.length + t.data.length
  rw [strData_append, List.length_append]

theorem seed_len_ne (i : Nat) (u : String) : ((seedRec i u).length != 0) = true := by
  have h : (seedRec i u).length = (toString i).length + (", ").length + u.length := by
    unfold seedRec
    rw [strLen_append, strLen_append]
  have h2 : (", ").length = 2 := rfl
  simp only [bne_iff_ne, ne_eq]
  omega

theorem takeWhile_append_left (p : Char → Bool) (l1 l2 : List Char)
    (h : l1.any (fun c => !(p c)) = true) :
    (l1 ++ l2).takeWhile p = l1.takeWhile p := by
  induction l1 with
  | nil => simp at h
  | cons c t ih =>
    cases hc : p c with
    | true =>
      have ht : t.any (fun c => !(p c)) = true := by
        simp [List.any_cons, hc] at h
        simpa using h
      simp [List.takeWhile_cons, hc, ih ht]
    | false => simp [List.takeWhile_cons, hc]

theorem afterLastSpace_append (s t : String) (h : ' ' ∈ t.data) :
    afterLastSpace (s ++ t) = afterLastSpace t := by
  unfold afterLastSpace
  rw [strData_append, List.reverse_append, takeWhile_append_left]
  exact List.any_eq_true.mpr ⟨' ', List.mem_reverse.mpr h, rfl⟩

theorem globMatchF_nowild (f : Nat) : ∀ (p s : List Char), p.length + s.length < f →
    noWildL p = true → (globMatchF f p s = true ↔ p = s) := by
  induction f with
  | zero =>
    intro p s h _
    omega
  | succ f ih =>
    intro p s hf hw
    match p, s with
    | [], [] => simp [globMatchF]
    | [], c :: cs => simp [globMatchF]
    | pc :: ps, s2 =>
      have hw2 : (pc ≠ '*' ∧ pc ≠ '?') ∧ noWildL ps = true := by
        have h3 := hw
        simp only [noWildL, List.all_cons, Bool.and_eq_true, bne_iff_ne] at h3
        exact ⟨h3.1, h3.2⟩
      cases s2 with
      | nil =>
        simp [globMatchF, hw2.1.1]
      | cons c cs =>
        have hlen : ps.length + cs.length < f := by
          simp only [List.length_cons] at hf
          omega
        simp only [globMatchF]
        rw [if_neg hw2.1.1, if_neg hw2.1.2, Bool.and_eq_true, beq_iff_eq,
          ih ps cs hlen hw2.2, List.cons.injEq]

theorem glob_nowild (pat s : String) (hw : noWild pat = true) :
    (globMatch pat s = true ↔ pat = s) := by
  unfold globMatch
  rw [globMatchF_nowild _ pat.data s.data (by omega) hw]
  constructor
  · intro h
    cases pat
    cases s
    exact congrArg String.mk h
  · intro h
    rw [h]

theorem get_reg_desc_nowild (l : List RegDesc) (pat : String) (d : RegDesc)
    (hw : noWild pat = true) (hf : get_reg_desc l pat = some d) : d.name = pat := by
  have h := List.find?_some hf
  exact ((glob_nowild pat d.name hw).mp h).symm

theorem hexDigitVal_digitChar (n : Nat) (h : n < 16) :
    hexDigitVal (Nat.digitChar n) = n := by
  interval_cases n <;> decide

theorem byteHex_length (b : Nat) : (byteHex b).length = 2 := rfl

theorem hexValL_append2 (l : List Char) (c1 c2 : Char) :
    hexValL (l ++ [c1, c2]) = 256 * hexValL l + 16 * hexDigitVal c1 + hexDigitVal c2 := by
  unfold hexValL
  rw [List.foldl_append]
  simp only [List.foldl_cons, List.foldl_nil]
  ring

theorem hexBytesRev_length (bs : List Nat) : (hexBytesRev bs).length = 2 * bs.length := by
  induction bs with
  | nil => rfl
  | cons b t ih =>
    show (hexBytesRev t ++ byteHex b).length = 2 * (t.length + 1)
    rw [strLen_append, ih, byteHex_length]
    ring

theorem hexBytesRev_val (bs : List Nat) (h : ∀ b ∈ bs, b < 256) :
    hexValL (hexBytesRev bs).data = leVal bs := by
  induction bs with
  | nil => rfl
  | cons b t ih =>
    have hb : b < 256 := h b (List.mem_cons_self b t)
    have ht : ∀ x ∈ t, x < 256 := fun x hx => h x (List.mem_cons_of_mem b hx)
    show hexValL (hexBytesRev t ++ byteHex b).data = leVal (b :: t)
    rw [strData_append]
    have hdata : (byteHex b).data = [Nat.digitChar (b / 16 % 16), Nat.digitChar (b % 16)] := rfl
    rw [hdata, hexValL_append2, ih ht,
      hexDigitVal_digitChar (b / 16 % 16) (Nat.mod_lt _ (by omega)),
      hexDigitVal_digitChar (b % 16) (Nat.mod_lt _ (by omega))]
    show 256 * leVal t + 16 * (b / 16 % 16) + b % 16 = b + 256 * leVal t
    omega

theorem step23_plain (env : Env) (cpu_index : Nat) (udata : String) (cpu : CPU) (outs1 : List String)
    (hb : strContains (seedRec cpu_index udata) "blr" = false)
    (hl : strContains (seedRec cpu_index udata) "bl" = false) :
    step23 env cpu_index udata cpu outs1 =
      { cpu := { insn_rec := seedRec cpu_index udata, index := cpu.index },
        outs := outs1, errs := [] } := by
  obtain ⟨r, ix⟩ := cpu
  simp [step23, hb, hl]

theorem step23_bl (env : Env) (cpu_index : Nat) (udata : String) (cpu : CPU) (outs1 : List String)
    (hb : strContains (seedRec cpu_index udata) "blr" = false)
    (hl : strContains (seedRec cpu_index udata) "bl" = true) :
    step23 env cpu_index udata cpu outs1 =
      { cpu := { insn_rec := seedRec cpu_index udata ++ "\n", index := cpu.index },
        outs := outs1 ++ [seedRec cpu_index udata ++ "\n"], errs := [] } := by
  obtain ⟨r, ix⟩ := cpu
  simp [step23, hb, hl, seed_len_ne]

theorem step23_blr_found (env : Env) (cpu_index : Nat) (udata : String) (cpu : CPU)
    (outs1 : List String) (d : RegDesc)
    (hb : strContains (seedRec cpu_index udata) "blr" = true)
    (hf : get_reg_desc (env.getRegisters cpu.index) (afterLastSpace (seedRec cpu_index udata)) = some d) :
    step23 env cpu_index udata cpu outs1 =
      { cpu := { insn_rec := read_register env cpu_index d (seedRec cpu_index udata), index := cpu.index },
        outs := outs1 ++ [read_register env cpu_index d (seedRec cpu_index udata)], errs := [] } := by
  obtain ⟨r, ix⟩ := cpu
  simp [step23, hb, seed_len_ne, hf]

theorem step23_outs_extend (env : Env) (cpu_index : Nat) (udata : String) (cpu : CPU)
    (outs1 : List String) :
    ∃ t, (step23 env cpu_index udata cpu outs1).outs = outs1 ++ t := by
  simp only [step23]
  split
  · split
    · exact ⟨[], by simp⟩
    · exact ⟨_, rfl⟩
  · split
    · exact ⟨_, rfl⟩
    · exact ⟨[], by simp⟩

theorem cb_no_pending (env : Env) (cpu_index : Nat) (udata : String) (cpu : CPU)
    (h : cpu.insn_rec = "") :
    vcpu_insn_exec_cb env cpu_index udata cpu = step23 env cpu_index udata cpu [] := by
  unfold vcpu_insn_exec_cb
  rw [h]
  simp

theorem cb_msr_pending (env : Env) (cpu_index : Nat) (udata : String) (cpu : CPU) (d : RegDesc)
    (hm : (cpu.insn_rec.length != 0 && strContains cpu.insn_rec "msr") = true)
    (hd : get_reg_desc (env.getRegisters cpu.index) "TTBR0_EL1" = some d) :
    vcpu_insn_exec_cb env cpu_index udata cpu =
      step23 env cpu_index udata cpu [read_register env cpu_index d cpu.insn_rec] := by
  unfold vcpu_insn_exec_cb
  rw [hm, hd]
  simp

theorem vcpu_init_eq (l : List CPU) (i : Nat) :
    vcpu_init l i =
      l ++ (if i < l.length then []
            else List.replicate (i + 1 - l.length) { insn_rec := "", index := i }) := by
  unfold vcpu_init
  split <;> simp

theorem foldl_init_extend (es : List Nat) : ∀ l : List CPU, ∃ t, es.foldl vcpu_init l = l ++ t := by
  induction es with
  | nil => exact fun l => ⟨[], by simp⟩
  | cons e es ih =>
    intro l
    rcases ih (vcpu_init l e) with ⟨t1, ht1⟩
    refine ⟨(if e < l.length then []
             else List.replicate (e + 1 - l.length) { insn_rec := "", index := e }) ++ t1, ?_⟩
    rw [List.foldl_cons, ht1, vcpu_init_eq, List.append_assoc]

theorem getD_replicate_lt (n k : Nat) (a d : CPU) (h : k < n) :
    (List.replicate n a).getD k d = a := by
  induction n generalizing k with
  | zero => omega
  | succ n ih =>
    rw [List.replicate_succ]
    cases k with
    | zero => rfl
    | succ k => exact ih k (by omega)

theorem run_tags_stepwise (es : List Nat) : ∀ l : List CPU,
    (∀ k : Nat, k < (es.foldl vcpu_init l).length → ((es.foldl vcpu_init l).getD k dCPU).index = k) →
    stepwiseB es l.length = true := by
  induction es with
  | nil => exact fun l _ => rfl
  | cons i es ih =>
    intro l hyp
    rw [List.foldl_cons] at hyp
    rcases Nat.lt_trichotomy i l.length with hc | hc | hc
    · have hv : vcpu_init l i = l := by
        unfold vcpu_init
        rw [if_pos hc]
      rw [hv] at hyp
      have hs := ih l hyp
      show (decide (i ≤ l.length) && stepwiseB es (max l.length (i + 1))) = true
      rw [decide_eq_true (Nat.le_of_lt hc), Nat.max_eq_left hc, hs]
      rfl
    · have hv : vcpu_init l i = l ++ [{ insn_rec := "", index := i }] := by
        unfold vcpu_init
        rw [if_neg (by omega)]
        have h1 : i + 1 - l.length = 1 := by omega
        rw [h1]
        rfl
      rw [hv] at hyp
      have hs := ih (l ++ [{ insn_rec := "", index := i }]) hyp
      rw [List.length_append] at hs
      show (decide (i ≤ l.length) && stepwiseB es (max l.length (i + 1))) = true
      rw [decide_eq_true (Nat.le_of_eq hc), Nat.max_eq_right (by omega)]
      simpa [hc] using hs
    · exfalso
      have hv : vcpu_init l i =
          l ++ ({ insn_rec := "", index := i } ::
                List.replicate (i - l.length) { insn_rec := "", index := i }) := by
        unfold vcpu_init
        rw [if_neg (by omega)]
        have h1 : i + 1 - l.length = (i - l.length) + 1 := by omega
        rw [h1, List.replicate_succ]
      rcases foldl_init_extend es (vcpu_init l i) with ⟨t1, ht1⟩
      have ht2 : es.foldl vcpu_init (vcpu_init l i) =
          l ++ ({ insn_rec := "", index := i } ::
                (List.replicate (i - l.length) { insn_rec := "", index := i } ++ t1)) := by
        rw [ht1, hv, List.append_assoc, List.cons_append]
      have hlen : l.length < (es.foldl vcpu_init (vcpu_init l i)).length := by
        rw [ht2]
        simp
      have h6 := hyp l.length hlen
      rw [ht2, List.getD_append_right _ _ _ _ (Nat.le_refl _), Nat.sub_self] at h6
      have h8 : i = l.length := h6
      omega

theorem install_loop_spec (bp : Option String → Option Bool) (args : List String) :
    ∀ (fmt : Bool) (errs : List String),
      ((install_loop bp fmt errs args).ret = -1 ↔ ∃ opt ∈ args, badOpt bp opt) ∧
      ((install_loop bp fmt errs args).registered = true ↔ ¬∃ opt ∈ args, badOpt bp opt) := by
  induction args with
  | nil =>
    intro fmt errs
    constructor
    · simp [install_loop]
    · simp [install_loop]
  | cons opt rest ih =>
    intro fmt errs
    by_cases hk : optKey opt = "binary"
    · cases hbp : bp (optVal opt) with
      | none =>
        have hbad : badOpt bp opt := Or.inr hbp
        have hres : install_loop bp fmt errs (opt :: rest) =
            { ret := -1, registered := false,
              errs := errs ++ ["boolean argument parsing failed: " ++ opt ++ "\n"],
              fmt_bin := fmt } := by
          simp [install_loop, beq_iff_eq, hk, hbp]
        rw [hres]
        constructor
        · simp only [true_iff, iff_true]
          exact ⟨opt, List.mem_cons_self opt rest, hbad⟩
        · constructor
          · intro h
            exact absurd h (by simp)
          · intro hno
            exact absurd ⟨opt, List.mem_cons_self opt rest, hbad⟩ hno
      | some b =>
        have hnotbad : ¬badOpt bp opt := by
          intro hb
          cases hb with
          | inl h => exact h hk
          | inr h => rw [hbp] at h; exact Option.noConfusion h
        have hstep : install_loop bp fmt errs (opt :: rest) =
            install_loop bp b (errs ++ ["binary format option not yet supported\n"]) rest := by
          simp [install_loop, beq_iff_eq, hk, hbp]
        rw [hstep]
        have hiff : (∃ o ∈ opt :: rest, badOpt bp o) ↔ (∃ o ∈ rest, badOpt bp o) := by
          constructor
          · rintro ⟨o, ho, hob⟩
            rcases List.mem_cons.mp ho with h | h
            · exact absurd hob (h ▸ hnotbad)
            · exact ⟨o, h, hob⟩
          · rintro ⟨o, ho, hob⟩
            exact ⟨o, List.mem_cons_of_mem _ ho, hob⟩
        exact ⟨Iff.trans (ih b _).1 hiff.symm, Iff.trans (ih b _).2 (not_congr hiff).symm⟩
    · have hbad : badOpt bp opt := Or.inl hk
      have hres : install_loop bp fmt errs (opt :: rest) =
          { ret := -1, registered := false,
            errs := errs ++ ["option parsing failed: " ++ opt ++ "\n"], fmt_bin := fmt } := by
        simp [install_loop, beq_iff_eq, hk]
      rw [hres]
      constructor
      · simp only [true_iff, iff_true]
        exact ⟨opt, List.mem_cons_self opt rest, hbad⟩
      · constructor
        · intro h
          exact absurd h (by simp)
        · intro hno
          exact absurd ⟨opt, List.mem_cons_self opt rest, hbad⟩ hno

theorem install_loop_indep (bp bp2 : Option String → Option Bool)
    (hsome : ∀ v, (bp v).isSome = (bp2 v).isSome) (args : List String) :
    ∀ (fmt fmt2 : Bool) (errs : List String),
      (install_loop bp fmt errs args).ret = (install_loop bp2 fmt2 errs args).ret ∧
      (install_loop bp fmt errs args).registered = (install_loop bp2 fmt2 errs args).registered ∧
      (install_loop bp fmt errs args).errs = (install_loop bp2 fmt2 errs args).errs := by
  induction args with
  | nil => exact fun fmt fmt2 errs => ⟨rfl, rfl, rfl⟩
  | cons opt rest ih =>
    intro fmt fmt2 errs
    by_cases hk : optKey opt = "binary"
    · cases h1 : bp (optVal opt) with
      | none =>
        cases h2 : bp2 (optVal opt) with
        | none => simp [install_loop, beq_iff_eq, hk, h1, h2]
        | some b2 =>
          exfalso
          have h3 := hsome (optVal opt)
          rw [h1, h2] at h3
          exact Bool.noConfusion h3
      | some b =>
        cases h2 : bp2 (optVal opt) with
        | none =>
          exfalso
          have h3 := hsome (optVal opt)
          rw [h1, h2] at h3
          exact Bool.noConfusion h3
        | some b2 =>
          have hs1 : install_loop bp fmt errs (opt :: rest) =
              install_loop bp b (errs ++ ["binary format option not yet supported\n"]) rest := by
            simp [install_loop, beq_iff_eq, hk, h1]
          have hs2 : install_loop bp2 fmt2 errs (opt :: rest) =
              install_loop bp2 b2 (errs ++ ["binary format option not yet supported\n"]) rest := by
            simp [install_loop, beq_iff_eq, hk, h2]
          rw [hs1, hs2]
          exact ih b b2 _
    · simp [install_loop, beq_iff_eq, hk]

/- ------------------------------------------------------------------ -/
/- Claim theorems                                                     -/
/- ------------------------------------------------------------------ -/

/-- Claim C1 (counterexample): with two consecutive `msr ttbr0_el1`
instructions S1 then S2 and no other interesting instruction between them,
the correlator DOES emit a record for S1 — it is resolved (with the
post-S1 `TTBR0_EL1` value) and shipped during S2's callback — so "the
Event Correlator emits no record for S1 (its record is lost)" is false. -/
theorem c1_counterexample :
    (vcpu_insn_exec_cb envA 0 u2c
        (vcpu_insn_exec_cb envA 0 u1c { insn_rec := "", index := 0 }).cpu).outs
      = ["0, 0x100, 0xd5182000, msr ttbr0_el1, x1, TTBR0_EL1 -> 0x2a\n"] := by
  decide

/-- Claim C1 (amended): given two consecutive address-space-switch
instructions S1 then S2 with no other interesting instruction between
them, S1's callback emits nothing; S1's record is then resolved and
emitted at S2's callback (the deferred `TTBR0_EL1` read lands in S1's
record, which is shipped before S2's context overwrites the buffer); and
S2's record is resolved and emitted first at the next interesting
instruction, whatever it is. -/
theorem c1_consecutive_msr (env : Env) (i : Nat) (u1 u2 : String) (cpu : CPU) (d : RegDesc)
    (h0 : cpu.insn_rec = "")
    (hm1 : strContains (seedRec i u1) "msr" = true)
    (hb1 : strContains (seedRec i u1) "blr" = false)
    (hl1 : strContains (seedRec i u1) "bl" = false)
    (hm2 : strContains (seedRec i u2) "msr" = true)
    (hb2 : strContains (seedRec i u2) "blr" = false)
    (hl2 : strContains (seedRec i u2) "bl" = false)
    (hd : get_reg_desc (env.getRegisters cpu.index) "TTBR0_EL1" = some d) :
    (vcpu_insn_exec_cb env i u1 cpu).outs = [] ∧
    (vcpu_insn_exec_cb env i u2 (vcpu_insn_exec_cb env i u1 cpu).cpu).outs
      = [read_register env i d (seedRec i u1)] ∧
    (∀ u3 : String,
      ((vcpu_insn_exec_cb env i u3
          (vcpu_insn_exec_cb env i u2 (vcpu_insn_exec_cb env i u1 cpu).cpu).cpu).outs).head?
        = some (read_register env i d (seedRec i u2))) := by
  have hr1 : vcpu_insn_exec_cb env i u1 cpu =
      { cpu := { insn_rec := seedRec i u1, index := cpu.index }, outs := [], errs := [] } := by
    rw [cb_no_pending env i u1 cpu h0, step23_plain env i u1 cpu [] hb1 hl1]
  have hm1a : ((({ insn_rec := seedRec i u1, index := cpu.index } : CPU).insn_rec).length != 0 &&
      strContains ({ insn_rec := seedRec i u1, index := cpu.index } : CPU).insn_rec "msr") = true := by
    show ((seedRec i u1).length != 0 && strContains (seedRec i u1) "msr") = true
    rw [seed_len_ne, hm1]
    rfl
  have hr2 : vcpu_insn_exec_cb env i u2 { insn_rec := seedRec i u1, index := cpu.index } =
      { cpu := { insn_rec := seedRec i u2, index := cpu.index },
        outs := [read_register env i d (seedRec i u1)], errs := [] } := by
    rw [cb_msr_pending env i u2 { insn_rec := seedRec i u1, index := cpu.index } d hm1a hd,
      step23_plain env i u2 { insn_rec := seedRec i u1, index := cpu.index }
        [read_register env i d (seedRec i u1)] hb2 hl2]
  have hm2a : ((({ insn_rec := seedRec i u2, index := cpu.index } : CPU).insn_rec).length != 0 &&
      strContains ({ insn_rec := seedRec i u2, index := cpu.index } : CPU).insn_rec "msr") = true := by
    show ((seedRec i u2).length != 0 && strContains (seedRec i u2) "msr") = true
    rw [seed_len_ne, hm2]
    rfl
  refine ⟨by rw [hr1], ?_, ?_⟩
  · rw [hr1]
    show (vcpu_insn_exec_cb env i u2 { insn_rec := seedRec i u1, index := cpu.index }).outs = _
    rw [hr2]
  · intro u3
    rw [hr1]
    show ((vcpu_insn_exec_cb env i u3
        (vcpu_insn_exec_cb env i u2 { insn_rec := seedRec i u1, index := cpu.index }).cpu).outs).head?
      = some (read_register env i d (seedRec i u2))
    rw [hr2]
    show ((vcpu_insn_exec_cb env i u3 { insn_rec := seedRec i u2, index := cpu.index }).outs).head? = _
    rw [cb_msr_pending env i u3 { insn_rec := seedRec i u2, index := cpu.index } d hm2a hd]
    rcases step23_outs_extend env i u3 { insn_rec := seedRec i u2, index := cpu.index }
      [read_register env i d (seedRec i u2)] with ⟨t, ht⟩
    rw [ht]
    rfl

/-- Claim C1 (witness): the amended theorem applied to the concrete
two-`msr` trace of `envA`. -/
theorem c1_witness :
    (vcpu_insn_exec_cb envA 0 u1c { insn_rec := "", index := 0 }).outs = [] ∧
    (vcpu_insn_exec_cb envA 0 u2c
        (vcpu_insn_exec_cb envA 0 u1c { insn_rec := "", index := 0 }).cpu).outs
      = [read_register envA 0 dTTBR (seedRec 0 u1c)] := by
  have h := c1_consecutive_msr envA 0 u1c u2c { insn_rec := "", index := 0 } dTTBR rfl
    (by decide) (by decide) (by decide) (by decide) (by decide) (by decide) (by decide)
  exact ⟨h.1, h.2.1⟩

/-- Claim C2 (counterexample): when the Step-1 `TTBR0_EL1` lookup fails, the
callback returns early — the new instruction's static context is NOT
seeded into the pending record (the stale `msr` record stays in place), so
"Step 2 runs unconditionally" is false. -/
theorem c2_counterexample :
    (vcpu_insn_exec_cb envNone 1 ubl2 { insn_rec := recMsr, index := 0 }).cpu.insn_rec = recMsr ∧
    (vcpu_insn_exec_cb envNone 1 ubl2 { insn_rec := recMsr, index := 0 }).cpu.insn_rec
      ≠ seedRec 1 ubl2 ∧
    (vcpu_insn_exec_cb envNone 1 ubl2 { insn_rec := recMsr, index := 0 }).outs = [] := by
  decide

/-- Claim C2 (amended): when the Step-1 register lookup fails, the failure is
non-fatal — a diagnostic naming `TTBR0_EL1` and the core is emitted, and
the pending record is abandoned without being emitted — but the callback
returns immediately: Step 2 does not run, the new instruction's static
context is not seeded, and the per-core state is left untouched (the stale
pending record is re-examined at the next invocation). -/
theorem c2_lookup_failure_early_return (env : Env) (cpu_index : Nat) (udata : String) (cpu : CPU)
    (hm : (cpu.insn_rec.length != 0 && strContains cpu.insn_rec "msr") = true)
    (hd : get_reg_desc (env.getRegisters cpu.index) "TTBR0_EL1" = none) :
    vcpu_insn_exec_cb env cpu_index udata cpu =
      { cpu := cpu, outs := [], errs := [diagTTBR cpu.index] } := by
  unfold vcpu_insn_exec_cb
  rw [hm, hd]
  simp

/-- Claim C2 (witness): the amended theorem applied to a concrete pending
`msr` record in an environment exposing no registers. -/
theorem c2_witness :
    vcpu_insn_exec_cb envNone 1 ubl2 { insn_rec := recMsr, index := 0 } =
      { cpu := { insn_rec := recMsr, index := 0 }, outs := [], errs := [diagTTBR 0] } := by
  exact c2_lookup_failure_early_return envNone 1 ubl2 { insn_rec := recMsr, index := 0 }
    (by decide) (by decide)

/-- Claim C3 (counterexample): a direct branch-with-link record is emitted in
its own callback, but the buffer is never cleared, so when no interesting
instruction follows before shutdown, `plugin_exit` ships the very same
record a second time (with an extra newline) — "no re-emission at
shutdown" is false. -/
theorem c3_counterexample :
    (vcpu_insn_exec_cb envNone 0 ubl { insn_rec := "", index := 0 }).outs
      = ["0, 0x400500, 0x94000058, bl #0x4005c0\n"] ∧
    plugin_exit [(vcpu_insn_exec_cb envNone 0 ubl { insn_rec := "", index := 0 }).cpu]
      = ["0, 0x400500, 0x94000058, bl #0x4005c0\n\n"] := by
  decide

/-- Claim C3 (amended): a direct branch-with-link instruction produces
exactly one record within the callback that observed it, consisting of the
static context plus a newline and no register segment; but the record
remains in the pending buffer, and if it is still there at shutdown the
shutdown handler emits it a second time with an extra newline. -/
theorem c3_bl_immediate_and_exit_reemits (env : Env) (i : Nat) (u : String) (cpu : CPU)
    (h0 : cpu.insn_rec = "")
    (hb : strContains (seedRec i u) "blr" = false)
    (hl : strContains (seedRec i u) "bl" = true) :
    vcpu_insn_exec_cb env i u cpu =
      { cpu := { insn_rec := seedRec i u ++ "\n", index := cpu.index },
        outs := [seedRec i u ++ "\n"], errs := [] } ∧
    plugin_exit [{ insn_rec := seedRec i u ++ "\n", index := cpu.index }]
      = [seedRec i u ++ "\n" ++ "\n"] := by
  refine ⟨?_, rfl⟩
  rw [cb_no_pending env i u cpu h0, step23_bl env i u cpu [] hb hl]
  rfl

/-- Claim C3 (witness): the amended theorem applied to the spec's
`bl #0x4005c0` scenario. -/
theorem c3_witness :
    vcpu_insn_exec_cb envNone 0 ubl { insn_rec := "", index := 0 } =
      { cpu := { insn_rec := seedRec 0 ubl ++ "\n", index := 0 },
        outs := [seedRec 0 ubl ++ "\n"], errs := [] } ∧
    plugin_exit [{ insn_rec := seedRec 0 ubl ++ "\n", index := 0 }]
      = [seedRec 0 ubl ++ "\n" ++ "\n"] := by
  exact c3_bl_immediate_and_exit_reemits envNone 0 ubl { insn_rec := "", index := 0 } rfl
    (by decide) (by decide)

/-- Claim C5 (code evaluated at the failing input): the shutdown handler's
guard tests the never-`NULL` `GString` data pointer instead of the length,
so a core whose pending record is empty still gets a record — a bare
newline — emitted for it, while non-empty records are emitted as the
claim says. -/
theorem c5_exit_empty_record :
    plugin_exit [{ insn_rec := "", index := 0 }] = ["\n"] ∧
    plugin_exit [{ insn_rec := "0, 0x400500, 0x94000058, bl #0x4005c0", index := 0 }]
      = ["0, 0x400500, 0x94000058, bl #0x4005c0\n"] := by
  decide

/-- Claim C4: for a register-indirect branch-with-link whose operand register
is found, the operand pattern is the final space-delimited token of the
instruction's disassembly text (the record-wide last-space scan lands
inside the disassembly), the found descriptor's name equals that token
(the token is wildcard-free, so the glob match is equality), and the
record — context, register segment naming the token, rendered value,
newline — is emitted within the same callback invocation. -/
theorem c4_blr_register_segment (env : Env) (i vaddr enc : Nat) (disas : String) (cpu : CPU)
    (d : RegDesc)
    (h0 : cpu.insn_rec = "")
    (hsp : ' ' ∈ disas.data)
    (hblr : strContains (seedRec i (mk_output vaddr enc disas)) "blr" = true)
    (hw : noWild (afterLastSpace disas) = true)
    (hf : get_reg_desc (env.getRegisters cpu.index) (afterLastSpace disas) = some d) :
    afterLastSpace (seedRec i (mk_output vaddr enc disas)) = afterLastSpace disas ∧
    d.name = afterLastSpace disas ∧
    vcpu_insn_exec_cb env i (mk_output vaddr enc disas) cpu =
      { cpu := { insn_rec := seedRec i (mk_output vaddr enc disas) ++ ", "
                   ++ afterLastSpace disas ++ " -> 0x"
                   ++ hexBytesRev (env.readRegister i d.handle) ++ "\n",
                 index := cpu.index },
        outs := [seedRec i (mk_output vaddr enc disas) ++ ", "
                   ++ afterLastSpace disas ++ " -> 0x"
                   ++ hexBytesRev (env.readRegister i d.handle) ++ "\n"],
        errs := [] } := by
  have hals : afterLastSpace (seedRec i (mk_output vaddr enc disas)) = afterLastSpace disas := by
    unfold seedRec mk_output
    rw [afterLastSpace_append, afterLastSpace_append _ _ hsp]
    rw [strData_append]
    exact List.mem_append.mpr (Or.inr hsp)
  have hname : d.name = afterLastSpace disas := get_reg_desc_nowild _ _ _ hw hf
  have hf2 : get_reg_desc (env.getRegisters cpu.index)
      (afterLastSpace (seedRec i (mk_output vaddr enc disas))) = some d := by
    rw [hals]
    exact hf
  refine ⟨hals, hname, ?_⟩
  rw [cb_no_pending env i (mk_output vaddr enc disas) cpu h0,
    step23_blr_found env i (mk_output vaddr enc disas) cpu [] d hblr hf2]
  unfold read_register
  rw [hname]
  rfl

/-- Claim C4 (witness): the theorem applied to the spec's `blr x3` scenario
with the branch-target value `0x4005c0` stored least-significant-first. -/
theorem c4_witness :
    afterLastSpace (seedRec 0 (mk_output 1024 100 "blr x3")) = afterLastSpace "blr x3" ∧
    dX3.name = afterLastSpace "blr x3" ∧
    vcpu_insn_exec_cb envX3 0 (mk_output 1024 100 "blr x3") { insn_rec := "", index := 0 } =
      { cpu := { insn_rec := seedRec 0 (mk_output 1024 100 "blr x3") ++ ", "
                   ++ afterLastSpace "blr x3" ++ " -> 0x"
                   ++ hexBytesRev (envX3.readRegister 0 dX3.handle) ++ "\n",
                 index := 0 },
        outs := [seedRec 0 (mk_output 1024 100 "blr x3") ++ ", "
                   ++ afterLastSpace "blr x3" ++ " -> 0x"
                   ++ hexBytesRev (envX3.readRegister 0 dX3.handle) ++ "\n"],
        errs := [] } := by
  exact c4_blr_register_segment envX3 0 1024 100 "blr x3" { insn_rec := "", index := 0 } dX3
    rfl (by decide) (by decide) (by decide) (by decide)

/-- Claim C6 (counterexample): for a register read returning the bytes
`00 00 00 00 00 40 05 c0` for `x3`, the rendered segment is
`", x3 -> 0xc005400000000000\n"` — every byte is rendered as two hex
digits in reverse array order and nothing is trimmed — not the claimed
`", x3 -> 0x40005c0"`, which does not even occur as a substring. -/
theorem c6_counterexample :
    read_register envC6 0 dX3C6 "" = ", x3 -> 0xc005400000000000\n" ∧
    strContains (read_register envC6 0 dX3C6 "") "0x40005c0" = false := by
  decide

/-- Claim C6 (amended): the renderer appends `", <name> -> 0x"`, then the
register bytes in reverse array order — two lowercase hex digits per byte,
leading zero bytes NOT trimmed (the digit count is exactly twice the byte
count) — then a newline; when the byte array is least-significant-first
the digits read back, most-significant-first, to the register's value. -/
theorem c6_render_reversed_no_trim (env : Env) (i : Nat) (d : RegDesc) (record : String)
    (hb : ∀ b ∈ env.readRegister i d.handle, b < 256) :
    read_register env i d record =
      record ++ ", " ++ d.name ++ " -> 0x"
        ++ hexBytesRev (env.readRegister i d.handle) ++ "\n" ∧
    (hexBytesRev (env.readRegister i d.handle)).length
      = 2 * (env.readRegister i d.handle).length ∧
    hexValL (hexBytesRev (env.readRegister i d.handle)).data
      = leVal (env.readRegister i d.handle) :=
  ⟨rfl, hexBytesRev_length _, hexBytesRev_val _ hb⟩

/-- Claim C6 (witness): the amended theorem applied to the concrete read of
`envC6` (bytes `00 00 00 00 00 40 05 c0`). -/
theorem c6_witness :
    read_register envC6 0 dX3C6 "" =
      "" ++ ", " ++ dX3C6.name ++ " -> 0x"
        ++ hexBytesRev (envC6.readRegister 0 dX3C6.handle) ++ "\n" ∧
    (hexBytesRev (envC6.readRegister 0 dX3C6.handle)).length
      = 2 * (envC6.readRegister 0 dX3C6.handle).length ∧
    hexValL (hexBytesRev (envC6.readRegister 0 dX3C6.handle)).data
      = leVal (envC6.readRegister 0 dX3C6.handle) := by
  exact c6_render_reversed_no_trim envC6 0 dX3C6 "" (by decide)

/-- Claim C7: the translation-time scanner registers an execution callback —
with captured address, first-word encoding, disassembly text and the
register-access flag, all packed by `mkReg` — exactly for the instructions
whose disassembly starts with `"bl"` or `"msr ttbr0"`, and registers
nothing for any other instruction. -/
theorem c7_tb_trans_registration (insns : List Insn) :
    vcpu_tb_trans insns =
      (insns.filter (fun insn =>
        strStartsWith insn.disas "bl" || strStartsWith insn.disas "msr ttbr0")).map mkReg := by
  induction insns with
  | nil => rfl
  | cons insn rest ih =>
    have hskip : insn_skip insn.disas
        = !(strStartsWith insn.disas "bl" || strStartsWith insn.disas "msr ttbr0") := by
      unfold insn_skip
      cases h1 : strStartsWith insn.disas "bl" <;>
        cases h2 : strStartsWith insn.disas "msr ttbr0" <;> simp
    simp only [vcpu_tb_trans, hskip, ih]
    cases hc : (strStartsWith insn.disas "bl" || strStartsWith insn.disas "msr ttbr0") <;>
      simp [List.filter_cons, hc]

/-- Claim C8: installation fails (returns `-1`, with no callbacks registered)
iff some option has an unrecognised key or is a `binary` option whose
value the boolean parser rejects; and the parsed value of a well-formed
`binary` option has no influence on the return value, the registrations,
or the diagnostics (only the dead `fmt_bin` flag). -/
theorem c8_install_iff (bp : Option String → Option Bool) (args : List String) :
    ((qemu_plugin_install bp args).ret = -1 ↔ ∃ opt ∈ args, badOpt bp opt) ∧
    ((qemu_plugin_install bp args).registered = true ↔ ¬∃ opt ∈ args, badOpt bp opt) ∧
    (∀ bp2 : Option String → Option Bool, (∀ v, (bp v).isSome = (bp2 v).isSome) →
      (qemu_plugin_install bp args).ret = (qemu_plugin_install bp2 args).ret ∧
      (qemu_plugin_install bp args).registered = (qemu_plugin_install bp2 args).registered ∧
      (qemu_plugin_install bp args).errs = (qemu_plugin_install bp2 args).errs) := by
  refine ⟨(install_loop_spec bp args false []).1, (install_loop_spec bp args false []).2, ?_⟩
  intro bp2 hsome
  exact install_loop_indep bp bp2 hsome args false false []

/-- Claim C8 (witness): the theorem applied to the single well-formed option
`binary=true` under the standard boolean parser. -/
theorem c8_witness :
    ((qemu_plugin_install bpStd ["binary=true"]).ret = -1
      ↔ ∃ opt ∈ ["binary=true"], badOpt bpStd opt) ∧
    ((qemu_plugin_install bpStd ["binary=true"]).registered = true
      ↔ ¬∃ opt ∈ ["binary=true"], badOpt bpStd opt) ∧
    (qemu_plugin_install bpStd ["binary=true"]).errs
      = (qemu_plugin_install bpStd ["binary=true"]).errs := by
  have h := c8_install_iff bpStd ["binary=true"]
  exact ⟨h.1, h.2.1, (h.2.2 bpStd (fun v => rfl)).2.2⟩

/-- Claim C10: (a) every slot written by a single grow operation for core
index `i` — from the old size up to and including slot `i` — receives the
identity tag `i`; (b) if after a sequence of core-online events every slot
`k` carries tag `k`, then the events arrived covering every index in
non-decreasing order (each event index was at most the registry size
current when it arrived); (c) the Event Correlator consults the register
directory only through the stored tag `cpu.index`, never through the
callback's core-index argument. -/
theorem c10_grow_tags :
    (∀ (l : List CPU) (i k : Nat), l.length ≤ i → l.length ≤ k → k ≤ i →
      ((vcpu_init l i).getD k dCPU).index = i) ∧
    (∀ es : List Nat,
      (∀ k : Nat, k < (run_init es).length → ((run_init es).getD k dCPU).index = k) →
      stepwiseB es 0 = true) ∧
    (∀ (env env2 : Env) (cpu_index : Nat) (udata : String) (cpu : CPU),
      env.getRegisters cpu.index = env2.getRegisters cpu.index →
      env.readRegister = env2.readRegister →
      vcpu_insn_exec_cb env cpu_index udata cpu = vcpu_insn_exec_cb env2 cpu_index udata cpu) := by
  refine ⟨?_, ?_, ?_⟩
  · intro l i k hi hk hki
    rw [vcpu_init_eq, if_neg (by omega), List.getD_append_right _ _ _ _ hk,
      getD_replicate_lt _ _ _ _ (by omega)]
  · intro es h
    exact run_tags_stepwise es [] h
  · intro env env2 cpu_index udata cpu hg hr
    unfold vcpu_insn_exec_cb step23 read_register
    rw [hg, hr]

/-- Claim C10 (witness): the theorem applied to a first grow, to the
in-order event sequence `[0, 1]`, and to two copies of `envNone`. -/
theorem c10_witness :
    ((vcpu_init [] 0).getD 0 dCPU).index = 0 ∧
    stepwiseB [0, 1] 0 = true ∧
    vcpu_insn_exec_cb envNone 0 "x" { insn_rec := "", index := 0 }
      = vcpu_insn_exec_cb envNone 0 "x" { insn_rec := "", index := 0 } := by
  refine ⟨?_, ?_, ?_⟩
  · exact c10_grow_tags.1 [] 0 0 (by decide) (by decide) (by decide)
  · refine c10_grow_tags.2.1 [0, 1] ?_
    intro k hk
    have hk2 : k < 2 := hk
    interval_cases k <;> rfl
  · exact c10_grow_tags.2.2 envNone envNone 0 "x" { insn_rec := "", index := 0 } rfl rfl

end Armcov
